import Mathlib

/-!
Shallow embedding of the record-linkage core of `src/streamlit_app.py`
(air-quality measurements joined with a city-coordinate gazetteer).

Modelling conventions:
  * pandas string cells are Lean `String`; nullable float cells (`lat`, `lon`,
    which `read_csv` may load as NaN) are `Option ℚ`; similarity scores
    (Python floats in `[0,100]`) are `ℚ`.
  * A pandas DataFrame is a `List` of row structures, in row order.
  * `df_final` is only assigned inside `if not df_coordinates.empty:` in the
    script; we model the script's derivation of `df_final` as an `Option`,
    `none` when the gazetteer table is empty and the block is skipped.
-/

namespace AirQuality

/-- Python `str.lower` restricted to the code points the claims exercise:
ASCII `A`-`Z` map to `a`-`z`, everything else is unchanged.  (Unicode full
lowercasing agrees with this on ASCII and, like it, fixes `a`-`z` and
`0`-`9`, which is all the subsequent `[^a-z0-9]` strip can let through.) -/
def pyLower (c : Char) : Char :=
  if 65 ≤ c.toNat ∧ c.toNat ≤ 90 then
    Char.ofNat (c.toNat + 32)
  else c

/-- Characters kept by `str.replace("[^a-z0-9]", "", regex=True)`:
lowercase ASCII letters and ASCII digits. -/
def isLowerAlnum (c : Char) : Bool :=
  (97 ≤ c.toNat && c.toNat ≤ 122) || (48 ≤ c.toNat && c.toNat ≤ 57)

/-- `df["City"].str.lower().str.replace("[^a-z0-9]", "", regex=True)`
applied to one cell (lines 27 and 49 of the script). -/
def normalize (s : String) : String :=
  ((s.toList.map pyLower).filter isLowerAlnum).asString

/-- One record of the `pycountry.countries` ISO 3166 database: the fields
`resolve_country` could touch (`alpha_2`, plus the searchable name). -/
structure PCCountry where
  alpha_2 : String
  name : String
deriving DecidableEq

/-- CPython semantics of `x in pycountry.countries` for a string `x`
tested against one element: `pycountry.db.Database` defines no
`__contains__`, so `in` falls back to iteration and `==`; a `str` compared
with a `pycountry.db.Data` instance (no `__eq__` either) is reference
comparison across distinct types, hence always `False`. -/
def pyStrEqCountry (_x : String) (_c : PCCountry) : Bool :=
  false

/-- `pycountry.countries.lookup(x)`: case-insensitive search of the
database fields, here returning the alpha-2 code of the first record whose
`alpha_2` or `name` matches `x` case-insensitively (`none` models the
`LookupError` branch). -/
def pycountryLookup (db : List PCCountry) (x : String) : Option String :=
  let xl := (x.toList.map pyLower).asString
  (db.find? (fun c =>
    (c.alpha_2.toList.map pyLower).asString = xl ||
    (c.name.toList.map pyLower).asString = xl)).map (fun c => c.alpha_2)

/-- The lambda of line 28:
`lambda x: pycountry.countries.lookup(x).alpha_2 if x in pycountry.countries else x`. -/
def resolve_country (db : List PCCountry) (x : String) : String :=
  if db.any (pyStrEqCountry x) then
    (pycountryLookup db x).getD x
  else x

/-- Fragment of the pycountry ISO 3166 data sufficient for the claims
(by `pyStrEqCountry`, `resolve_country` is insensitive to the contents). -/
def pycountriesDB : List PCCountry :=
  [⟨"US", "United States"⟩, ⟨"FR", "France"⟩]

/-- Fuel-indexed longest-common-subsequence recursion (structural in the
fuel, so that it reduces definitionally); each step consumes one unit of
fuel and shortens the combined input by at least one character, so
`|a| + |b|` units always suffice. -/
def lcsLenFuel : Nat → List Char → List Char → Nat
  | 0, _, _ => 0
  | _ + 1, [], _ => 0
  | _ + 1, _ :: _, [] => 0
  | fuel + 1, a :: as, b :: bs =>
    if a = b then lcsLenFuel fuel as bs + 1
    else max (lcsLenFuel fuel (a :: as) bs) (lcsLenFuel fuel as (b :: bs))

/-- Length of a longest common subsequence, the quantity underlying the
Indel distance used by `rapidfuzz.fuzz.ratio`:
`dist a b = |a| + |b| - 2 * lcsLen a b`. -/
def lcsLen (l1 l2 : List Char) : Nat :=
  lcsLenFuel (l1.length + l2.length) l1 l2

/-- `rapidfuzz.fuzz.ratio(a, b)`: the normalized Indel similarity scaled to
`[0,100]`, i.e. `100 * (1 - dist/(|a|+|b|)) = 200 * lcs / (|a|+|b|)`;
two empty strings score `100`. -/
def ratio (a b : String) : ℚ :=
  if a.length + b.length = 0 then 100
  else (200 * (lcsLen a.toList b.toList : ℚ)) / ((a.length : ℚ) + (b.length : ℚ))

/-- One step of the best-candidate scan inside
`rapidfuzz.process.extractOne`: keep the incumbent unless the new choice
scores strictly higher (so the first of several equal maxima is kept). -/
def extractOneStep (query : String) (acc : Option (String × ℚ)) (c : String) :
    Option (String × ℚ) :=
  match acc with
  | none => some (c, ratio query c)
  | some (b, s) => if ratio query c > s then some (c, ratio query c) else some (b, s)

/-- `rapidfuzz.process.extractOne(query, choices, scorer=fuzz.ratio)`
restricted to the parts the script uses (choice and score; the index is
discarded at line 61): best-scoring choice, first one on ties, `None` on an
empty choice sequence. -/
def extractOne (query : String) (choices : List String) : Option (String × ℚ) :=
  choices.foldl (extractOneStep query) none

/-- The maximum `ratio query ·` over a list of candidates (0 on the empty
list; every candidate list the script passes is non-empty). -/
def maxScore (query : String) (choices : List String) : ℚ :=
  (choices.map (ratio query)).foldl max 0

/-- `Series.unique()`: distinct values in order of first appearance. -/
def uniqueFirstSeen (l : List String) : List String :=
  l.foldl (fun acc x => if x ∈ acc then acc else acc ++ [x]) []

/-- A row of `df_air_quality` after the renames and column selection of
`load_air_quality_data` (lines 14-24): the five numeric pollutant fields
are kept as loaded. -/
structure MeasurementRow where
  country : String
  city : String
  aqi : ℚ
  pm25 : ℚ
  no2 : ℚ
  ozone : ℚ
deriving DecidableEq

/-- A row of `df_coordinates` after the renames and column selection of
`load_city_coordinates` (lines 38-46); `lat`/`lon` are nullable. -/
structure GazetteerRow where
  city : String
  country : String
  lat : Option ℚ
  lon : Option ℚ
deriving DecidableEq

/-- A row of `df_final`: measurement columns plus the merged `lat`/`lon`
(null when the left merge found no key match or the gazetteer cell was null). -/
structure JoinedRow where
  country : String
  city : String
  aqi : ℚ
  pm25 : ℚ
  no2 : ℚ
  ozone : ℚ
  lat : Option ℚ
  lon : Option ℚ
deriving DecidableEq

/-- `load_air_quality_data` from the renamed table on: normalizes `City`
(line 27) and applies the country lambda to `Country` (line 28). -/
def load_air_quality_data (db : List PCCountry) (rows : List MeasurementRow) :
    List MeasurementRow :=
  rows.map (fun r =>
    { r with city := normalize r.city, country := resolve_country db r.country })

/-- `load_city_coordinates` from the renamed table on: normalizes `City`
(line 49); `Country`, `lat`, `lon` pass through. -/
def load_city_coordinates (rows : List GazetteerRow) : List GazetteerRow :=
  rows.map (fun r => { r with city := normalize r.city })

/-- The body of the loop at lines 60-63 for one distinct measurement city
`s`: the entry `(s, match)` that the iteration adds to `city_mapping` when
the best score against the distinct gazetteer cities exceeds 85, `none`
when it adds nothing. -/
def bestMapping (gCities : List String) (s : String) : Option (String × String) :=
  match extractOne s (uniqueFirstSeen gCities) with
  | some (m, sc) => if sc > 85 then some (s, m) else none
  | none => none

/-- The `city_mapping` dict built at lines 59-63, as an association list in
insertion order: one optional entry per distinct measurement city. -/
def city_mapping (mCities gCities : List String) : List (String × String) :=
  (uniqueFirstSeen mCities).filterMap (bestMapping gCities)

/-- `Series.replace(city_mapping)` on one cell (line 65): dict replacement
of exact matches, identity elsewhere. -/
def applyMapping (m : List (String × String)) (c : String) : String :=
  match m.lookup c with
  | some v => v
  | none => c

/-- The contribution of one left row to a pandas left merge on
`["City", "Country"]`: one output row per matching right row, or a single
row with null `lat`/`lon` when no right row matches the key. -/
def mergeRow (gs : List GazetteerRow) (m : MeasurementRow) : List JoinedRow :=
  if (gs.filter (fun g => g.city = m.city && g.country = m.country)).isEmpty then
    [⟨m.country, m.city, m.aqi, m.pm25, m.no2, m.ozone, none, none⟩]
  else
    (gs.filter (fun g => g.city = m.city && g.country = m.country)).map
      (fun g => ⟨m.country, m.city, m.aqi, m.pm25, m.no2, m.ozone, g.lat, g.lon⟩)

/-- `df_air_quality.merge(df_coordinates, on=["City", "Country"], how="left")`
(line 68): every left row in order, each contributing its `mergeRow` block. -/
def mergeLeft (ms : List MeasurementRow) (gs : List GazetteerRow) : List JoinedRow :=
  ms.flatMap (mergeRow gs)

/-- `dropna(subset=['lat','lon'])` keeps a row exactly when both cells are
non-null. -/
def hasCoords (r : JoinedRow) : Bool :=
  r.lat.isSome && r.lon.isSome

/-- The measurement table as of line 65: loaded, city-normalized,
country-resolved, and with each city rewritten through `city_mapping`. -/
def df_air_quality_rewritten (db : List PCCountry) (mRows : List MeasurementRow)
    (gRows : List GazetteerRow) : List MeasurementRow :=
  let dfA := load_air_quality_data db mRows
  let dfG := load_city_coordinates gRows
  let mapping := city_mapping (dfA.map (fun r => r.city)) (dfG.map (fun r => r.city))
  dfA.map (fun r => { r with city := applyMapping mapping r.city })

/-- The derivation of `df_final` in the script (lines 54-71), from the two
loaded-and-renamed tables: `some` of the joined, coordinate-filtered table
when `df_coordinates` is non-empty; `none` when the guard at line 57 skips
the block and `df_final` is never assigned at all. -/
def df_final (db : List PCCountry) (mRows : List MeasurementRow)
    (gRows : List GazetteerRow) : Option (List JoinedRow) :=
  if (load_city_coordinates gRows).isEmpty then none
  else some ((mergeLeft (df_air_quality_rewritten db mRows gRows)
    (load_city_coordinates gRows)).filter hasCoords)

/-! Supporting lemmas. -/

theorem pyLower_of_isLowerAlnum {c : Char} (h : isLowerAlnum c = true) :
    pyLower c = c := by
  simp only [isLowerAlnum, Bool.or_eq_true, Bool.and_eq_true, decide_eq_true_eq] at h
  unfold pyLower
  have hno : ¬ (65 ≤ c.toNat ∧ c.toNat ≤ 90) := by omega
  simp [hno]

theorem filter_pyLower_of_alnum :
    ∀ l : List Char, (∀ c ∈ l, isLowerAlnum c = true) →
      (l.map pyLower).filter isLowerAlnum = l := by
  intro l
  induction l with
  | nil => intro _; rfl
  | cons a as ih =>
    intro h
    have ha : isLowerAlnum a = true := h a (List.mem_cons_self a as)
    simp only [List.map_cons, List.filter_cons, pyLower_of_isLowerAlnum ha, ha,
      if_true]
    rw [ih (fun c hc => h c (List.mem_cons_of_mem a hc))]

theorem toList_normalize (x : String) :
    (normalize x).toList = (x.toList.map pyLower).filter isLowerAlnum := rfl

theorem ratio_nonneg (a b : String) : 0 ≤ ratio a b := by
  unfold ratio
  split
  · norm_num
  · apply div_nonneg
    · positivity
    · positivity

theorem extractOne_go (q : String) :
    ∀ (cs : List String) (b : String),
      ∃ m, cs.foldl (extractOneStep q) (some (b, ratio q b)) = some (m, ratio q m) ∧
        (m = b ∨ m ∈ cs) ∧
        ratio q m = (cs.map (ratio q)).foldl max (ratio q b) := by
  intro cs
  induction cs with
  | nil => exact fun b => ⟨b, rfl, Or.inl rfl, rfl⟩
  | cons c cs ih =>
    intro b
    rw [List.foldl_cons, List.map_cons, List.foldl_cons]
    by_cases hc : ratio q c > ratio q b
    · obtain ⟨m, hfold, hmem, hmax⟩ := ih c
      refine ⟨m, ?_, ?_, ?_⟩
      · rw [show extractOneStep q (some (b, ratio q b)) c = some (c, ratio q c) by
          simp [extractOneStep, hc]]
        exact hfold
      · rcases hmem with h | h
        · exact Or.inr (h ▸ List.mem_cons_self c cs)
        · exact Or.inr (List.mem_cons_of_mem c h)
      · rw [max_eq_right (le_of_lt hc)]
        exact hmax
    · obtain ⟨m, hfold, hmem, hmax⟩ := ih b
      refine ⟨m, ?_, ?_, ?_⟩
      · rw [show extractOneStep q (some (b, ratio q b)) c = some (b, ratio q b) by
          simp [extractOneStep, hc]]
        exact hfold
      · rcases hmem with h | h
        · exact Or.inl h
        · exact Or.inr (List.mem_cons_of_mem c h)
      · rw [max_eq_left (not_lt.mp hc)]
        exact hmax

theorem extractOne_spec (q : String) (choices : List String) (h : choices ≠ []) :
    ∃ m, extractOne q choices = some (m, ratio q m) ∧ m ∈ choices ∧
      ratio q m = maxScore q choices := by
  match choices, h with
  | c :: cs, _ =>
    obtain ⟨m, hfold, hmem, hmax⟩ := extractOne_go q cs c
    refine ⟨m, ?_, ?_, ?_⟩
    · show (c :: cs).foldl (extractOneStep q) none = _
      rw [List.foldl_cons]
      exact hfold
    · rcases hmem with h | h
      · exact h ▸ List.mem_cons_self c cs
      · exact List.mem_cons_of_mem c h
    · unfold maxScore
      rw [List.map_cons, List.foldl_cons, max_eq_right (ratio_nonneg q c)]
      exact hmax

theorem uniqueFirstSeen_go_nodup :
    ∀ (l acc : List String), acc.Nodup →
      (l.foldl (fun acc x => if x ∈ acc then acc else acc ++ [x]) acc).Nodup := by
  intro l
  induction l with
  | nil => exact fun _ h => h
  | cons a as ih =>
    intro acc h
    rw [List.foldl_cons]
    by_cases ha : a ∈ acc
    · rw [if_pos ha]
      exact ih acc h
    · rw [if_neg ha]
      refine ih _ ?_
      rw [List.nodup_append]
      exact ⟨h, List.nodup_singleton a, by simpa using ha⟩

theorem uniqueFirstSeen_nodup (l : List String) : (uniqueFirstSeen l).Nodup :=
  uniqueFirstSeen_go_nodup l [] List.nodup_nil

theorem lookup_filterMap_not_mem (f : String → Option (String × String))
    (hf : ∀ a p, f a = some p → p.1 = a) :
    ∀ (L : List String) (s : String), s ∉ L → (L.filterMap f).lookup s = none := by
  intro L
  induction L with
  | nil => intro s _; rfl
  | cons a as ih =>
    intro s hs
    rw [List.filterMap_cons]
    cases hfa : f a with
    | none => exact ih s (fun h => hs (List.mem_cons_of_mem a h))
    | some p =>
      obtain ⟨k, v⟩ := p
      have hk : k = a := hf a (k, v) hfa
      have hne : (s == k) = false := by
        rw [beq_eq_false_iff_ne]
        intro hsk
        have : s = a := hsk.trans hk
        exact hs (this ▸ List.mem_cons_self s as)
      show List.lookup s ((k, v) :: as.filterMap f) = none
      rw [List.lookup_cons]
      simp only [hne]
      exact ih s (fun h => hs (List.mem_cons_of_mem a h))

theorem lookup_filterMap_eq (f : String → Option (String × String))
    (hf : ∀ a p, f a = some p → p.1 = a) :
    ∀ (L : List String) (s : String), L.Nodup → s ∈ L →
      (L.filterMap f).lookup s = (f s).map Prod.snd := by
  intro L
  induction L with
  | nil => intro s _ hs; cases hs
  | cons a as ih =>
    intro s hnd hs
    rw [List.filterMap_cons]
    rcases List.mem_cons.mp hs with rfl | hs2
    · cases hfa : f s with
      | none =>
        rw [lookup_filterMap_not_mem f hf as s (List.nodup_cons.mp hnd).1]
        rfl
      | some p =>
        obtain ⟨k, v⟩ := p
        have hk : k = s := hf s (k, v) hfa
        show List.lookup s ((k, v) :: as.filterMap f) = _
        rw [List.lookup_cons]
        simp [hk]
    · have hanot : a ∉ as := (List.nodup_cons.mp hnd).1
      have hne : a ≠ s := fun h => hanot (h ▸ hs2)
      cases hfa : f a with
      | none => exact ih s (List.nodup_cons.mp hnd).2 hs2
      | some p =>
        obtain ⟨k, v⟩ := p
        have hk : k = a := hf a (k, v) hfa
        have hkne : (s == k) = false := by
          rw [beq_eq_false_iff_ne]
          intro hsk
          exact hne (hsk.trans hk).symm
        show List.lookup s ((k, v) :: as.filterMap f) = _
        rw [List.lookup_cons]
        simp only [hkne]
        exact ih s (List.nodup_cons.mp hnd).2 hs2

theorem bestMapping_key (gs : List String) :
    ∀ a p, bestMapping gs a = some p → p.1 = a := by
  intro a p
  unfold bestMapping
  cases extractOne a (uniqueFirstSeen gs) with
  | none => intro hp; cases hp
  | some x =>
    obtain ⟨m, sc⟩ := x
    show (if sc > 85 then some (a, m) else none) = some p → p.1 = a
    by_cases hsc : sc > 85
    · rw [if_pos hsc]
      intro hp
      cases hp
      rfl
    · rw [if_neg hsc]
      intro hp
      cases hp

theorem filter_mergeRow (gs : List GazetteerRow) (m : MeasurementRow) :
    (mergeRow gs m).filter hasCoords =
      ((gs.filter (fun g => g.city = m.city && g.country = m.country)).filter
        (fun g => g.lat.isSome && g.lon.isSome)).map
        (fun g => ⟨m.country, m.city, m.aqi, m.pm25, m.no2, m.ozone, g.lat, g.lon⟩) := by
  unfold mergeRow
  by_cases hh : (gs.filter (fun g => g.city = m.city && g.country = m.country)).isEmpty
  · rw [if_pos hh, List.isEmpty_iff.mp hh]
    rfl
  · rw [if_neg hh, List.filter_map]
    congr 1

theorem filter_mergeLeft (ms : List MeasurementRow) (gs : List GazetteerRow) :
    (mergeLeft ms gs).filter hasCoords =
      ms.flatMap (fun m =>
        ((gs.filter (fun g => g.city = m.city && g.country = m.country)).filter
          (fun g => g.lat.isSome && g.lon.isSome)).map
          (fun g => ⟨m.country, m.city, m.aqi, m.pm25, m.no2, m.ozone, g.lat, g.lon⟩)) := by
  induction ms with
  | nil => rfl
  | cons m ms ih =>
    show (mergeRow gs m ++ mergeLeft ms gs).filter hasCoords = _
    rw [List.filter_append, ih, filter_mergeRow, List.flatMap_cons]

/-! Theorems for the claims. -/

/-- Claim C7: `normalize` is total (it is a total Lean function) and
idempotent: normalizing twice equals normalizing once, for every string
including the empty one. -/
theorem c7_normalize_idempotent (x : String) :
    normalize (normalize x) = normalize x := by
  have h : ∀ c ∈ (x.toList.map pyLower).filter isLowerAlnum, isLowerAlnum c = true :=
    fun c hc => (List.mem_filter.mp hc).2
  show (((normalize x).toList.map pyLower).filter isLowerAlnum).asString = normalize x
  rw [toList_normalize, filter_pyLower_of_alnum _ h]
  rfl

/-- Claim C8: every character of `normalize x` is a lowercase ASCII letter
or an ASCII digit, for every input string. -/
theorem c8_normalize_alnum (x : String) :
    (normalize x).toList.all isLowerAlnum = true := by
  rw [toList_normalize, List.all_eq_true]
  intro c hc
  exact (List.mem_filter.mp hc).2

/-- Claim C10: the membership guard `x in pycountry.countries` never holds
for a string, so the country-resolution lambda of line 28 is the identity
on every input, whatever the country database contains. -/
theorem c10_resolver_identity (db : List PCCountry) (x : String) :
    db.any (pyStrEqCountry x) = false ∧ resolve_country db x = x := by
  have h : db.any (pyStrEqCountry x) = false := by
    induction db with
    | nil => rfl
    | cons a as ih => simp [pyStrEqCountry, ih]
  exact ⟨h, by simp [resolve_country, h]⟩

/-- Claim C2, actual behavior at the failing input: the code returns
`"United States"` unchanged (the claim says `"US"`); the pass-through half
of the claim does hold on `"Unknownland"`. -/
theorem c2_resolver_passthrough_everything :
    resolve_country pycountriesDB "United States" = "United States" ∧
    resolve_country pycountriesDB "Unknownland" = "Unknownland" := by
  constructor <;> rfl

/-- Claim C4, actual behavior at the failing input: with an empty gazetteer
table the guard at line 57 skips the whole matching/join block, so no
`df_final` table is produced at all (the claim says the pipeline still
produces its output table). -/
theorem c4_empty_gazetteer_no_table (db : List PCCountry)
    (ms : List MeasurementRow) : df_final db ms [] = none := rfl

/-- Claim C1, actual behavior at the failing input: with measurement row
(country France, city Parris, AQI 50, PM2.5 20, NO2 10, Ozone 5) and
gazetteer row (Paris, FR, 48.85, 2.35), the pipeline produces an EMPTY
table, not the single claimed row: the fuzzy match rewrites parris to
paris, but the measurement country stays France (line 28 is the identity,
see C10), so the join key (paris, France) misses (paris, FR) and the
null-coordinate filter drops the row. -/
theorem c1_end_to_end_result :
    df_final pycountriesDB [⟨"France", "Parris", 50, 20, 10, 5⟩]
      [⟨"Paris", "FR", some 48.85, some 2.35⟩] = some [] := by
  with_unfolding_all decide

/-- Claim C5, counterexample: a gazetteer with two rows sharing the key
(paris, FR) makes the single matched measurement row produce TWO output
rows (pandas left merge emits one row per matching gazetteer row; it does
not pick a single match). -/
theorem c5_duplicate_key_counterexample :
    (df_final pycountriesDB [⟨"FR", "Paris", 50, 20, 10, 5⟩]
        [⟨"Paris", "FR", some 1, some 2⟩, ⟨"Paris", "FR", some 3, some 4⟩]).map
      (fun out => out.length) = some 2 := by
  with_unfolding_all decide

/-- Claim C5 as amended: with a non-empty gazetteer, the final table has
exactly one output row per pair of a (rewritten) measurement row and a
gazetteer row that matches its (city, country) key and carries non-null
coordinates — so a duplicated gazetteer key duplicates the measurement
row rather than being collapsed to a single match. -/
theorem c5_granularity_amended (db : List PCCountry) (mRows : List MeasurementRow)
    (gRows : List GazetteerRow) (hg : (load_city_coordinates gRows).isEmpty = false) :
    df_final db mRows gRows =
      some ((df_air_quality_rewritten db mRows gRows).flatMap (fun m =>
        (((load_city_coordinates gRows).filter
            (fun g => g.city = m.city && g.country = m.country)).filter
          (fun g => g.lat.isSome && g.lon.isSome)).map
          (fun g => ⟨m.country, m.city, m.aqi, m.pm25, m.no2, m.ozone, g.lat, g.lon⟩))) := by
  unfold df_final
  rw [if_neg (by rw [hg]; exact Bool.false_ne_true), filter_mergeLeft]

/-- Witness for the amended C5 at the duplicate-key input. -/
theorem c5_granularity_amended_witness :
    df_final pycountriesDB [⟨"FR", "Paris", 50, 20, 10, 5⟩]
        [⟨"Paris", "FR", some 1, some 2⟩, ⟨"Paris", "FR", some 3, some 4⟩] =
      some ((df_air_quality_rewritten pycountriesDB [⟨"FR", "Paris", 50, 20, 10, 5⟩]
          [⟨"Paris", "FR", some 1, some 2⟩, ⟨"Paris", "FR", some 3, some 4⟩]).flatMap
        (fun m =>
          (((load_city_coordinates
                [⟨"Paris", "FR", some 1, some 2⟩, ⟨"Paris", "FR", some 3, some 4⟩]).filter
              (fun g => g.city = m.city && g.country = m.country)).filter
            (fun g => g.lat.isSome && g.lon.isSome)).map
            (fun g => ⟨m.country, m.city, m.aqi, m.pm25, m.no2, m.ozone, g.lat, g.lon⟩))) :=
  c5_granularity_amended pycountriesDB _ _ (by decide)

/-- Claim C6: every row of the final joined table has non-null `lat` and
non-null `lon`; any joined row with a null coordinate (matched key or not)
is excluded by the `dropna` filter. -/
theorem c6_coords_nonnull (db : List PCCountry) (ms : List MeasurementRow)
    (gs : List GazetteerRow) :
    ((df_final db ms gs).getD []).all
      (fun r => r.lat.isSome && r.lon.isSome) = true := by
  unfold df_final
  by_cases hE : (load_city_coordinates gs).isEmpty
  · rw [if_pos hE]
    rfl
  · rw [if_neg hE, Option.getD_some, List.all_eq_true]
    intro r hr
    exact (List.mem_filter.mp hr).2

/-- Claim C9: the pipeline is a pure function of the two input tables, so
two runs on value-identical inputs produce value-identical outputs. -/
theorem c9_deterministic (db : List PCCountry) (m1 m2 : List MeasurementRow)
    (g1 g2 : List GazetteerRow) (hm : m1 = m2) (hg : g1 = g2) :
    df_final db m1 g1 = df_final db m2 g2 := by
  rw [hm, hg]

/-- Claim C3: for every distinct measurement city `s` and non-empty
distinct gazetteer city list, `city_mapping` records an entry for `s`
exactly when the maximum `fuzz.ratio` score of `s` against the gazetteer
cities exceeds 85, that entry is a maximum-scoring gazetteer city, and an
`s` without an entry is left unchanged by the `replace` rewrite. -/
theorem c3_matcher_invariant (ms gs : List String) (s : String)
    (hs : s ∈ uniqueFirstSeen ms) (hg : uniqueFirstSeen gs ≠ []) :
    (85 < maxScore s (uniqueFirstSeen gs) →
      ∃ m, (city_mapping ms gs).lookup s = some m ∧ m ∈ uniqueFirstSeen gs ∧
        ratio s m = maxScore s (uniqueFirstSeen gs)) ∧
    (maxScore s (uniqueFirstSeen gs) ≤ 85 →
      (city_mapping ms gs).lookup s = none ∧
      applyMapping (city_mapping ms gs) s = s) := by
  obtain ⟨m, hE, hmem, hmax⟩ := extractOne_spec s (uniqueFirstSeen gs) hg
  have hlk : (city_mapping ms gs).lookup s = (bestMapping gs s).map Prod.snd :=
    lookup_filterMap_eq (bestMapping gs) (bestMapping_key gs)
      (uniqueFirstSeen ms) s (uniqueFirstSeen_nodup ms) hs
  have hbm : bestMapping gs s = if ratio s m > 85 then some (s, m) else none := by
    unfold bestMapping
    rw [hE]
  constructor
  · intro h85
    refine ⟨m, ?_, hmem, hmax⟩
    rw [hlk, hbm, if_pos (by rw [hmax]; exact h85)]
    rfl
  · intro h85
    have hnone : bestMapping gs s = none := by
      rw [hbm, if_neg (by rw [hmax]; exact not_lt.mpr h85)]
    refine ⟨by rw [hlk, hnone]; rfl, ?_⟩
    unfold applyMapping
    rw [hlk, hnone]
    rfl

/-- Witness for C3: `S = ["newyork"]`, `G = ["newyork", "newark"]`; the max
score is 100 > 85 and the recorded match is the max-scoring candidate. -/
theorem c3_matcher_invariant_witness :
    ∃ m, (city_mapping ["newyork"] ["newyork", "newark"]).lookup "newyork" = some m ∧
      m ∈ uniqueFirstSeen ["newyork", "newark"] ∧
      ratio "newyork" m = maxScore "newyork" (uniqueFirstSeen ["newyork", "newark"]) :=
  (c3_matcher_invariant ["newyork"] ["newyork", "newark"] "newyork"
    (by decide) (by decide)).1 (by with_unfolding_all decide)

/-- Witness for C9 at a concrete pair of equal inputs. -/
theorem c9_deterministic_witness :
    df_final pycountriesDB [⟨"FR", "Paris", 50, 20, 10, 5⟩]
        [⟨"Paris", "FR", some 1, some 2⟩] =
      df_final pycountriesDB [⟨"FR", "Paris", 50, 20, 10, 5⟩]
        [⟨"Paris", "FR", some 1, some 2⟩] :=
  c9_deterministic pycountriesDB _ _ _ _ rfl rfl

end AirQuality
